import Mathlib

/-!
Verification development for the Thwomp repository: a self-describing binary
serialization codec.  The repository holds three near-identical VLQ-based
implementations (`src/SerDes.py`, `src/SD.py`, `src/Thwomp.py`) and one
LEB-based variant (`src/ToBeGreen/SD.py`).  Byte strings are modelled as
`List Nat` (each element a byte value); Python functions that can raise are
modelled with `Option`/`Except`.
-/

/-- The closed set of Python values the VLQ-based implementations serialize.
Registered variants of `codecs` in `src/SerDes.py:122-132` (equally the
`serers`/`desers` tables of `src/SD.py` and `codecs` of `src/Thwomp.py`).
Text is modelled by the list of its UTF-8 code units (`strToBytes` /
`bytesToStr` are mutually inverse between a string and its UTF-8 bytes, so
a `str` value is represented directly by those bytes).  A `dict` is
modelled by its list of items in iteration order. -/
inductive Value : Type where
  | bytes (b : List Nat)
  | str (s : List Nat)
  | int (n : Int)
  | bool (b : Bool)
  | list (xs : List Value)
  | tuple (xs : List Value)
  | set (xs : List Value)
  | frozenset (xs : List Value)
  | dict (items : List (Value × Value))

/-- Errors with which the modelled deserialization entry points fail; each
constructor records what the Python code actually raises at that point. -/
inductive DesErr : Type where
  /-- The `except` handler of `Des` crashed with `NameError`: `peel` of the
  tag frame raised before `t` was bound, and the handler references `t`. -/
  | nameError
  /-- The `except` handler of `Des` crashed with `TypeError`: the tag was
  not a registry key, and the handler concatenates a `str` with the `bytes`
  tag (`"...'" + t + "'..."`), which raises.  No tag name is carried. -/
  | typeConcat
  /-- An uncaught `IndexError`: `blob[0]` on an empty byte string (in
  `VLQToInt` during a `peel` outside the `try`, or in `_bool_des`). -/
  | indexError
  /-- `dict()` was given an entry that is not a 2-element sequence. -/
  | valueError
  /-- A dict entry decoded to a non-`bytes` value and `_list_des` was
  applied to it; Python fails dynamically there (type error or divergence
  in the `while blob != b""` loop). -/
  | typeError
  /-- Recursion budget exhausted — an artifact of the fuelled embedding,
  never reached at the inputs reasoned about. -/
  | fuel
deriving DecidableEq

namespace SerDes

/-! ### Backend interface (src/SerDes.py:35-81) -/

/-- The loop of `intToVLQ` before the final `result[-1] &= 0b01111111`:
base-128 digits of `n`, most significant first, every digit marked with
the continuation bit (`n & 0b01111111 | 0b10000000`, prepended while the
shifted `n` stays positive). -/
def vlqMarked (n : Nat) : List Nat :=
  if n < 128 then [n ||| 128]
  else vlqMarked (n / 128) ++ [(n % 128) ||| 128]
termination_by n
decreasing_by
  exact Nat.div_lt_self (by omega) (by omega)

/-- `result[-1] &= 0b01111111`: clear the continuation bit of the last
element. -/
def clearLast : List Nat → List Nat
  | [] => []
  | [d] => [d &&& 127]
  | d :: rest => d :: clearLast rest

/-- `intToVLQ` of `src/SerDes.py:38-51` restricted to the non-negative
result of `abs(int(n))`. -/
def natToVLQ (n : Nat) : List Nat := clearLast (vlqMarked n)

/-- `intToVLQ` (src/SerDes.py:38-51): first takes `abs(int(n))`, then emits
the marked digits and clears the final continuation bit. -/
def intToVLQ (n : Int) : List Nat := natToVLQ n.natAbs

/-- The accumulator loop of `VLQToInt`: `n <<= 7; n += x & 0x7F`, stopping
at the first byte without the continuation bit; `blob[0]` on an exhausted
byte string raises `IndexError` (modelled as `none`). -/
def vlqGo (n : Nat) : List Nat → Option Nat
  | [] => none
  | x :: rest =>
    if x &&& 128 ≠ 0 then vlqGo (n * 128 + (x &&& 127)) rest
    else some (n * 128 + (x &&& 127))

/-- `VLQToInt` (src/SerDes.py:53-62). -/
def VLQToInt (b : List Nat) : Option Nat := vlqGo 0 b

/-- `skipVLQ` (src/SerDes.py:64-71): drop bytes while the continuation bit
is set, then drop the terminating byte; `none` models the `IndexError` on
an exhausted byte string. -/
def skipVLQ : List Nat → Option (List Nat)
  | [] => none
  | x :: rest => if x &&& 128 ≠ 0 then skipVLQ rest else some rest

/-- `pascalify` (src/SerDes.py:73). -/
def pascalify (b : List Nat) : List Nat := intToVLQ b.length ++ b

/-- `depascalify` (src/SerDes.py:74): `[VLQToInt(bobj), skipVLQ(bobj)]`
(both fail on the same inputs, so the pair is combined in one `Option`). -/
def depascalify (b : List Nat) : Option (Nat × List Nat) :=
  match VLQToInt b, skipVLQ b with
  | some n, some rest => some (n, rest)
  | _, _ => none

/-- `peel` (src/SerDes.py:76-81): split the remainder at the declared
length; Python slicing clamps, so no bounds check happens. -/
def peel (b : List Nat) : Option (List Nat × List Nat) :=
  match depascalify b with
  | none => none
  | some (n, rest) => some (rest.take n, rest.drop n)

/-! ### Registry tag names (src/SerDes.py:122-132), as UTF-8 bytes -/

def bytesTag : List Nat := [98, 121, 116, 101, 115]
def strTag : List Nat := [115, 116, 114]
def intTag : List Nat := [105, 110, 116]
def boolTag : List Nat := [98, 111, 111, 108]
def listTag : List Nat := [108, 105, 115, 116]
def tupleTag : List Nat := [116, 117, 112, 108, 101]
def setTag : List Nat := [115, 101, 116]
def frozensetTag : List Nat := [102, 114, 111, 122, 101, 110, 115, 101, 116]
def dictTag : List Nat := [100, 105, 99, 116]

/-- `t` is a key of the `codecs` registry. -/
def knownTag (t : List Nat) : Bool :=
  t == bytesTag || t == strTag || t == intTag || t == boolTag || t == listTag
    || t == tupleTag || t == setTag || t == frozensetTag || t == dictTag

/-! ### Serializers (src/SerDes.py:85-99) -/

/-- `_bytes_ser`: `bytes(x)`, identity on a bytes object. -/
def _bytes_ser (b : List Nat) : List Nat := b

/-- `_str_ser`: `strToBytes(x)`, the UTF-8 bytes of the string — identity
in the chosen representation of Text. -/
def _str_ser (s : List Nat) : List Nat := s

/-- `_int_ser`: `intToVLQ(x)`. -/
def _int_ser (n : Int) : List Nat := intToVLQ n

/-- `_bool_ser`: `b"\xFF" if x else b"\x00"`. -/
def _bool_ser (b : Bool) : List Nat := if b then [255] else [0]

mutual

/-- `Ser` (src/SerDes.py:134-143): look up the variant by the value's
runtime type name and emit `pascalify(strToBytes(t)) + pascalify(serializer(x))`.
Every constructor of `Value` has a registry entry, so the lookup never
fails here. -/
def Ser : Value → List Nat
  | .bytes b => pascalify bytesTag ++ pascalify (_bytes_ser b)
  | .str s => pascalify strTag ++ pascalify (_str_ser s)
  | .int n => pascalify intTag ++ pascalify (_int_ser n)
  | .bool b => pascalify boolTag ++ pascalify (_bool_ser b)
  | .list xs => pascalify listTag ++ pascalify (serElems xs)
  | .tuple xs => pascalify tupleTag ++ pascalify (serElems xs)
  | .set xs => pascalify setTag ++ pascalify (serElems xs)
  | .frozenset xs => pascalify frozensetTag ++ pascalify (serElems xs)
  | .dict items => pascalify dictTag ++ pascalify (serItems items)

/-- `_list_ser` (src/SerDes.py:90-94): concatenate `pascalify(Ser(y))`
over the elements. -/
def serElems : List Value → List Nat
  | [] => []
  | v :: vs => pascalify (Ser v) ++ serElems vs

/-- The body of `_dict_ser` (src/SerDes.py:99):
`_list_ser(map(_list_ser, x.items()))`.  The inner `_list_ser` turns each
item `(k, v)` into the bytes `pascalify(Ser k) ++ pascalify(Ser v)`; the
outer `_list_ser` then calls `Ser` on that bytes object, so every entry is
framed as a unit tagged `"bytes"` (the expansion of
`Ser (.bytes inner)` is written out for termination). -/
def serItems : List (Value × Value) → List Nat
  | [] => []
  | (k, v) :: rest =>
    pascalify (pascalify bytesTag
        ++ pascalify (pascalify (Ser k) ++ pascalify (Ser v)))
      ++ serItems rest

end

/-! ### Deserializers (src/SerDes.py:103-118) -/

/-- `_bytes_des`: identity. -/
def _bytes_des (b : List Nat) : Except DesErr Value := .ok (.bytes b)

/-- `_str_des`: `bytesToStr`, identity in the chosen representation of
Text (a decode error on invalid UTF-8 is not distinguished here; no
theorem below depends on that path). -/
def _str_des (b : List Nat) : Except DesErr Value := .ok (.str b)

/-- `_int_des`: `VLQToInt(blob)`; `IndexError` on a blob with no
terminating byte. -/
def _int_des (b : List Nat) : Except DesErr Value :=
  match VLQToInt b with
  | none => .error .indexError
  | some n => .ok (.int n)

/-- Python's `blob[0] == "\x00"` compares an `int` with a `str`; values of
different types never compare equal in Python, so the test is always
`False` whatever the byte is. -/
def intEqStr (x : Nat) : Bool := false

/-- `_bool_des`: `False if blob[0] == "\x00" else True`; `blob[0]` raises
`IndexError` on an empty payload. -/
def _bool_des (b : List Nat) : Except DesErr Value :=
  match b with
  | [] => .error .indexError
  | x :: _ => .ok (.bool (if intEqStr x then false else true))

mutual

/-- The recursive engine of `Des` (src/SerDes.py:145-153), fuelled: peel
the tag frame (`NameError` in the handler if that raises), look the tag up
in `codecs` (handler `TypeError` if absent), peel the payload frame
(uncaught `IndexError` if that raises) and apply the variant's
deserializer to the payload. -/
def desF : Nat → List Nat → Except DesErr Value
  | 0, _ => .error .fuel
  | n + 1, b =>
    match peel b with
    | none => .error .nameError
    | some (t, rest) =>
      if knownTag t then
        match peel rest with
        | none => .error .indexError
        | some (p, _) =>
          if t == bytesTag then _bytes_des p
          else if t == strTag then _str_des p
          else if t == intTag then _int_des p
          else if t == boolTag then _bool_des p
          else if t == listTag then
            match desListF n p with
            | .error e => .error e
            | .ok vs => .ok (.list vs)
          else if t == tupleTag then
            match desListF n p with
            | .error e => .error e
            | .ok vs => .ok (.tuple vs)
          else if t == setTag then
            match desListF n p with
            | .error e => .error e
            | .ok vs => .ok (.set vs)
          else if t == frozensetTag then
            match desListF n p with
            | .error e => .error e
            | .ok vs => .ok (.frozenset vs)
          else
            match desListF n p with
            | .error e => .error e
            | .ok vs =>
              match desItemsF n vs with
              | .error e => .error e
              | .ok items => .ok (.dict items)
      else .error .typeConcat

/-- `_list_des` (src/SerDes.py:108-113), fuelled: peel encoded units until
the blob is exhausted, deserializing each with `Des`. -/
def desListF : Nat → List Nat → Except DesErr (List Value)
  | _, [] => .ok []
  | 0, _ :: _ => .error .fuel
  | n + 1, x :: bs =>
    match peel (x :: bs) with
    | none => .error .indexError
    | some (y, rest) =>
      match desF n y with
      | .error e => .error e
      | .ok v =>
        match desListF n rest with
        | .error e => .error e
        | .ok vs => .ok (v :: vs)

/-- The `dict(map(_list_des, ...))` step of `_dict_des`
(src/SerDes.py:118): apply `_list_des` to each decoded entry (which must
be a bytes object holding `[key, value]` as a sequence payload) and build
the dict. -/
def desItemsF : Nat → List Value → Except DesErr (List (Value × Value))
  | _, [] => .ok []
  | 0, _ :: _ => .error .fuel
  | n + 1, v :: vs =>
    match v with
    | .bytes bs =>
      match desListF n bs with
      | .error e => .error e
      | .ok [k, w] =>
        match desItemsF n vs with
        | .error e => .error e
        | .ok items => .ok ((k, w) :: items)
      | .ok _ => .error .valueError
    | _ => .error .typeError

end

/-- `_list_des` as the registry stores it: the loop of src/SerDes.py:108-113
run with a budget derived from the payload (each loop step and each
recursive `Des` consumes framing bytes, so the budget is never exhausted
on the byte strings reasoned about below). -/
def _list_des (b : List Nat) : Except DesErr Value :=
  match desListF (b.length + 1) b with
  | .error e => .error e
  | .ok vs => .ok (.list vs)

/-- `_tuple_des` (src/SerDes.py:115). -/
def _tuple_des (b : List Nat) : Except DesErr Value :=
  match desListF (b.length + 1) b with
  | .error e => .error e
  | .ok vs => .ok (.tuple vs)

/-- `_set_des` (src/SerDes.py:116). -/
def _set_des (b : List Nat) : Except DesErr Value :=
  match desListF (b.length + 1) b with
  | .error e => .error e
  | .ok vs => .ok (.set vs)

/-- `_frozenset_des` (src/SerDes.py:117). -/
def _frozenset_des (b : List Nat) : Except DesErr Value :=
  match desListF (b.length + 1) b with
  | .error e => .error e
  | .ok vs => .ok (.frozenset vs)

/-- `_dict_des` (src/SerDes.py:118): `dict(map(_list_des, _list_des(blob)))`. -/
def _dict_des (b : List Nat) : Except DesErr Value :=
  match desListF (b.length + 1) b with
  | .error e => .error e
  | .ok vs =>
    match desItemsF (b.length + 1) vs with
    | .error e => .error e
    | .ok items => .ok (.dict items)

/-- `Des` (src/SerDes.py:145-153): peel the tag frame, look the tag up,
peel the payload frame and apply the registered deserializer.  Bytes after
the payload frame are dropped by `peel(bobj)[0]`. -/
def Des (b : List Nat) : Except DesErr Value :=
  match peel b with
  | none => .error .nameError
  | some (t, rest) =>
    if knownTag t then
      match peel rest with
      | none => .error .indexError
      | some (p, _) =>
        if t == bytesTag then _bytes_des p
        else if t == strTag then _str_des p
        else if t == intTag then _int_des p
        else if t == boolTag then _bool_des p
        else if t == listTag then _list_des p
        else if t == tupleTag then _tuple_des p
        else if t == setTag then _set_des p
        else if t == frozensetTag then _frozenset_des p
        else _dict_des p
    else .error .typeConcat

end SerDes

namespace SD

/-! ### Backend interface (src/SD.py:83-140) -/

/-- The loop of `intToVLQ` before the final `result[-1] &= 0b01111111`:
base-128 digits of `n`, most significant first, every digit marked with
the continuation bit (`n & 0b01111111 | 0b10000000`, prepended while the
shifted `n` stays positive). -/
def vlqMarked (n : Nat) : List Nat :=
  if n < 128 then [n ||| 128]
  else vlqMarked (n / 128) ++ [(n % 128) ||| 128]
termination_by n
decreasing_by
  exact Nat.div_lt_self (by omega) (by omega)

/-- `result[-1] &= 0b01111111`: clear the continuation bit of the last
element. -/
def clearLast : List Nat → List Nat
  | [] => []
  | [d] => [d &&& 127]
  | d :: rest => d :: clearLast rest

/-- `intToVLQ` of `src/SD.py:91-104` restricted to the non-negative
result of `abs(int(n))`. -/
def natToVLQ (n : Nat) : List Nat := clearLast (vlqMarked n)

/-- `intToVLQ` (src/SD.py:91-104): first takes `abs(int(n))`, then emits
the marked digits and clears the final continuation bit. -/
def intToVLQ (n : Int) : List Nat := natToVLQ n.natAbs

/-- The accumulator loop of `VLQToInt`: `n <<= 7; n += x & 0x7F`, stopping
at the first byte without the continuation bit; `blob[0]` on an exhausted
byte string raises `IndexError` (modelled as `none`). -/
def vlqGo (n : Nat) : List Nat → Option Nat
  | [] => none
  | x :: rest =>
    if x &&& 128 ≠ 0 then vlqGo (n * 128 + (x &&& 127)) rest
    else some (n * 128 + (x &&& 127))

/-- `VLQToInt` (src/SD.py:106-115). -/
def VLQToInt (b : List Nat) : Option Nat := vlqGo 0 b

/-- `skipVLQ` (src/SD.py:217-219-124): drop bytes while the continuation bit
is set, then drop the terminating byte; `none` models the `IndexError` on
an exhausted byte string. -/
def skipVLQ : List Nat → Option (List Nat)
  | [] => none
  | x :: rest => if x &&& 128 ≠ 0 then skipVLQ rest else some rest

/-- `pascalify` (src/SD.py:126-128). -/
def pascalify (b : List Nat) : List Nat := intToVLQ b.length ++ b

/-- `depascalify` (src/SD.py:130-132): `[VLQToInt(bobj), skipVLQ(bobj)]`
(both fail on the same inputs, so the pair is combined in one `Option`). -/
def depascalify (b : List Nat) : Option (Nat × List Nat) :=
  match VLQToInt b, skipVLQ b with
  | some n, some rest => some (n, rest)
  | _, _ => none

/-- `peel` (src/SD.py:134-140): split the remainder at the declared
length; Python slicing clamps, so no bounds check happens. -/
def peel (b : List Nat) : Option (List Nat × List Nat) :=
  match depascalify b with
  | none => none
  | some (n, rest) => some (rest.take n, rest.drop n)

/-! ### Registry tag names (src/SD.py:227-249), as UTF-8 bytes -/

def bytesTag : List Nat := [98, 121, 116, 101, 115]
def strTag : List Nat := [115, 116, 114]
def intTag : List Nat := [105, 110, 116]
def boolTag : List Nat := [98, 111, 111, 108]
def listTag : List Nat := [108, 105, 115, 116]
def tupleTag : List Nat := [116, 117, 112, 108, 101]
def setTag : List Nat := [115, 101, 116]
def frozensetTag : List Nat := [102, 114, 111, 122, 101, 110, 115, 101, 116]
def dictTag : List Nat := [100, 105, 99, 116]

/-- `t` is a key of the `desers` registry. -/
def knownTag (t : List Nat) : Bool :=
  t == bytesTag || t == strTag || t == intTag || t == boolTag || t == listTag
    || t == tupleTag || t == setTag || t == frozensetTag || t == dictTag

/-! ### Serializers (src/SD.py:144-181) -/

/-- `_bytes_ser`: `bytes(x)`, identity on a bytes object. -/
def _bytes_ser (b : List Nat) : List Nat := b

/-- `_str_ser`: `strToBytes(x)`, the UTF-8 bytes of the string — identity
in the chosen representation of Text. -/
def _str_ser (s : List Nat) : List Nat := s

/-- `_int_ser`: `intToVLQ(x)`. -/
def _int_ser (n : Int) : List Nat := intToVLQ n

/-- `_bool_ser`: `b"\xFF" if x else b"\x00"`. -/
def _bool_ser (b : Bool) : List Nat := if b then [255] else [0]

mutual

/-- `Ser` (src/SD.py:251-259): look the value's type up in `serers` and emit `pascalify(strToBytes(t)) + pascalify(serializer(x))`.
Every constructor of `Value` has a registry entry, so the lookup never
fails here. -/
def Ser : Value → List Nat
  | .bytes b => pascalify bytesTag ++ pascalify (_bytes_ser b)
  | .str s => pascalify strTag ++ pascalify (_str_ser s)
  | .int n => pascalify intTag ++ pascalify (_int_ser n)
  | .bool b => pascalify boolTag ++ pascalify (_bool_ser b)
  | .list xs => pascalify listTag ++ pascalify (serElems xs)
  | .tuple xs => pascalify tupleTag ++ pascalify (serElems xs)
  | .set xs => pascalify setTag ++ pascalify (serElems xs)
  | .frozenset xs => pascalify frozensetTag ++ pascalify (serElems xs)
  | .dict items => pascalify dictTag ++ pascalify (serItems items)

/-- `_list_ser` (src/SD.py:160-165): concatenate `pascalify(Ser(y))`
over the elements. -/
def serElems : List Value → List Nat
  | [] => []
  | v :: vs => pascalify (Ser v) ++ serElems vs

/-- The body of `_dict_ser` (src/SD.py:179-181):
`_list_ser(map(_list_ser, x.items()))`.  The inner `_list_ser` turns each
item `(k, v)` into the bytes `pascalify(Ser k) ++ pascalify(Ser v)`; the
outer `_list_ser` then calls `Ser` on that bytes object, so every entry is
framed as a unit tagged `"bytes"` (the expansion of
`Ser (.bytes inner)` is written out for termination). -/
def serItems : List (Value × Value) → List Nat
  | [] => []
  | (k, v) :: rest =>
    pascalify (pascalify bytesTag
        ++ pascalify (pascalify (Ser k) ++ pascalify (Ser v)))
      ++ serItems rest

end

/-! ### Deserializers (src/SD.py:185-223) -/

/-- `_bytes_des`: identity. -/
def _bytes_des (b : List Nat) : Except DesErr Value := .ok (.bytes b)

/-- `_str_des`: `bytesToStr`, identity in the chosen representation of
Text (a decode error on invalid UTF-8 is not distinguished here; no
theorem below depends on that path). -/
def _str_des (b : List Nat) : Except DesErr Value := .ok (.str b)

/-- `_int_des`: `VLQToInt(blob)`; `IndexError` on a blob with no
terminating byte. -/
def _int_des (b : List Nat) : Except DesErr Value :=
  match VLQToInt b with
  | none => .error .indexError
  | some n => .ok (.int n)

/-- Python's `blob[0] == "\x00"` compares an `int` with a `str`; values of
different types never compare equal in Python, so the test is always
`False` whatever the byte is. -/
def intEqStr (x : Nat) : Bool := false

/-- `_bool_des`: `False if blob[0] == "\x00" else True`; `blob[0]` raises
`IndexError` on an empty payload. -/
def _bool_des (b : List Nat) : Except DesErr Value :=
  match b with
  | [] => .error .indexError
  | x :: _ => .ok (.bool (if intEqStr x then false else true))

mutual

/-- The recursive engine of `Des` (src/SD.py:261-269), fuelled: peel
the tag frame (`NameError` in the handler if that raises), look the tag up
in `desers` (handler `TypeError` if absent), peel the payload frame
(uncaught `IndexError` if that raises) and apply the variant's
deserializer to the payload. -/
def desF : Nat → List Nat → Except DesErr Value
  | 0, _ => .error .fuel
  | n + 1, b =>
    match peel b with
    | none => .error .nameError
    | some (t, rest) =>
      if knownTag t then
        match peel rest with
        | none => .error .indexError
        | some (p, _) =>
          if t == bytesTag then _bytes_des p
          else if t == strTag then _str_des p
          else if t == intTag then _int_des p
          else if t == boolTag then _bool_des p
          else if t == listTag then
            match desListF n p with
            | .error e => .error e
            | .ok vs => .ok (.list vs)
          else if t == tupleTag then
            match desListF n p with
            | .error e => .error e
            | .ok vs => .ok (.tuple vs)
          else if t == setTag then
            match desListF n p with
            | .error e => .error e
            | .ok vs => .ok (.set vs)
          else if t == frozensetTag then
            match desListF n p with
            | .error e => .error e
            | .ok vs => .ok (.frozenset vs)
          else
            match desListF n p with
            | .error e => .error e
            | .ok vs =>
              match desItemsF n vs with
              | .error e => .error e
              | .ok items => .ok (.dict items)
      else .error .typeConcat

/-- `_list_des` (src/SD.py:201-207), fuelled: peel encoded units until
the blob is exhausted, deserializing each with `Des`. -/
def desListF : Nat → List Nat → Except DesErr (List Value)
  | _, [] => .ok []
  | 0, _ :: _ => .error .fuel
  | n + 1, x :: bs =>
    match peel (x :: bs) with
    | none => .error .indexError
    | some (y, rest) =>
      match desF n y with
      | .error e => .error e
      | .ok v =>
        match desListF n rest with
        | .error e => .error e
        | .ok vs => .ok (v :: vs)

/-- The `dict(map(_list_des, ...))` step of `_dict_des`
(src/SD.py:221-223): apply `_list_des` to each decoded entry (which must
be a bytes object holding `[key, value]` as a sequence payload) and build
the dict. -/
def desItemsF : Nat → List Value → Except DesErr (List (Value × Value))
  | _, [] => .ok []
  | 0, _ :: _ => .error .fuel
  | n + 1, v :: vs =>
    match v with
    | .bytes bs =>
      match desListF n bs with
      | .error e => .error e
      | .ok [k, w] =>
        match desItemsF n vs with
        | .error e => .error e
        | .ok items => .ok ((k, w) :: items)
      | .ok _ => .error .valueError
    | _ => .error .typeError

end

/-- `_list_des` as the registry stores it: the loop of src/SD.py:201-207
run with a budget derived from the payload (each loop step and each
recursive `Des` consumes framing bytes, so the budget is never exhausted
on the byte strings reasoned about below). -/
def _list_des (b : List Nat) : Except DesErr Value :=
  match desListF (b.length + 1) b with
  | .error e => .error e
  | .ok vs => .ok (.list vs)

/-- `_tuple_des` (src/SD.py:209-211). -/
def _tuple_des (b : List Nat) : Except DesErr Value :=
  match desListF (b.length + 1) b with
  | .error e => .error e
  | .ok vs => .ok (.tuple vs)

/-- `_set_des` (src/SD.py:213-215). -/
def _set_des (b : List Nat) : Except DesErr Value :=
  match desListF (b.length + 1) b with
  | .error e => .error e
  | .ok vs => .ok (.set vs)

/-- `_frozenset_des` (src/SD.py:217-219). -/
def _frozenset_des (b : List Nat) : Except DesErr Value :=
  match desListF (b.length + 1) b with
  | .error e => .error e
  | .ok vs => .ok (.frozenset vs)

/-- `_dict_des` (src/SD.py:221-223): `dict(map(_list_des, _list_des(blob)))`. -/
def _dict_des (b : List Nat) : Except DesErr Value :=
  match desListF (b.length + 1) b with
  | .error e => .error e
  | .ok vs =>
    match desItemsF (b.length + 1) vs with
    | .error e => .error e
    | .ok items => .ok (.dict items)

/-- `Des` (src/SD.py:261-269): peel the tag frame, look the tag up,
peel the payload frame and apply the registered deserializer.  Bytes after
the payload frame are dropped by `peel(bobj)[0]`. -/
def Des (b : List Nat) : Except DesErr Value :=
  match peel b with
  | none => .error .nameError
  | some (t, rest) =>
    if knownTag t then
      match peel rest with
      | none => .error .indexError
      | some (p, _) =>
        if t == bytesTag then _bytes_des p
        else if t == strTag then _str_des p
        else if t == intTag then _int_des p
        else if t == boolTag then _bool_des p
        else if t == listTag then _list_des p
        else if t == tupleTag then _tuple_des p
        else if t == setTag then _set_des p
        else if t == frozensetTag then _frozenset_des p
        else _dict_des p
    else .error .typeConcat

end SD

namespace Thwomp

/-! ### Backend interface (src/Thwomp.py:35-81) -/

/-- The loop of `intToVLQ` before the final `result[-1] &= 0b01111111`:
base-128 digits of `n`, most significant first, every digit marked with
the continuation bit (`n & 0b01111111 | 0b10000000`, prepended while the
shifted `n` stays positive). -/
def vlqMarked (n : Nat) : List Nat :=
  if n < 128 then [n ||| 128]
  else vlqMarked (n / 128) ++ [(n % 128) ||| 128]
termination_by n
decreasing_by
  exact Nat.div_lt_self (by omega) (by omega)

/-- `result[-1] &= 0b01111111`: clear the continuation bit of the last
element. -/
def clearLast : List Nat → List Nat
  | [] => []
  | [d] => [d &&& 127]
  | d :: rest => d :: clearLast rest

/-- `intToVLQ` of `src/Thwomp.py:38-51` restricted to the non-negative
result of `abs(int(n))`. -/
def natToVLQ (n : Nat) : List Nat := clearLast (vlqMarked n)

/-- `intToVLQ` (src/Thwomp.py:38-51): first takes `abs(int(n))`, then emits
the marked digits and clears the final continuation bit. -/
def intToVLQ (n : Int) : List Nat := natToVLQ n.natAbs

/-- The accumulator loop of `VLQToInt`: `n <<= 7; n += x & 0x7F`, stopping
at the first byte without the continuation bit; `blob[0]` on an exhausted
byte string raises `IndexError` (modelled as `none`). -/
def vlqGo (n : Nat) : List Nat → Option Nat
  | [] => none
  | x :: rest =>
    if x &&& 128 ≠ 0 then vlqGo (n * 128 + (x &&& 127)) rest
    else some (n * 128 + (x &&& 127))

/-- `VLQToInt` (src/Thwomp.py:53-62). -/
def VLQToInt (b : List Nat) : Option Nat := vlqGo 0 b

/-- `skipVLQ` (src/Thwomp.py:64-71): drop bytes while the continuation bit
is set, then drop the terminating byte; `none` models the `IndexError` on
an exhausted byte string. -/
def skipVLQ : List Nat → Option (List Nat)
  | [] => none
  | x :: rest => if x &&& 128 ≠ 0 then skipVLQ rest else some rest

/-- `pascalify` (src/Thwomp.py:73). -/
def pascalify (b : List Nat) : List Nat := intToVLQ b.length ++ b

/-- `depascalify` (src/Thwomp.py:74): `[VLQToInt(bobj), skipVLQ(bobj)]`
(both fail on the same inputs, so the pair is combined in one `Option`). -/
def depascalify (b : List Nat) : Option (Nat × List Nat) :=
  match VLQToInt b, skipVLQ b with
  | some n, some rest => some (n, rest)
  | _, _ => none

/-- `peel` (src/Thwomp.py:76-81): split the remainder at the declared
length; Python slicing clamps, so no bounds check happens. -/
def peel (b : List Nat) : Option (List Nat × List Nat) :=
  match depascalify b with
  | none => none
  | some (n, rest) => some (rest.take n, rest.drop n)

/-! ### Registry tag names (src/Thwomp.py:122-132), as UTF-8 bytes -/

def bytesTag : List Nat := [98, 121, 116, 101, 115]
def strTag : List Nat := [115, 116, 114]
def intTag : List Nat := [105, 110, 116]
def boolTag : List Nat := [98, 111, 111, 108]
def listTag : List Nat := [108, 105, 115, 116]
def tupleTag : List Nat := [116, 117, 112, 108, 101]
def setTag : List Nat := [115, 101, 116]
def frozensetTag : List Nat := [102, 114, 111, 122, 101, 110, 115, 101, 116]
def dictTag : List Nat := [100, 105, 99, 116]

/-- `t` is a key of the `codecs` registry. -/
def knownTag (t : List Nat) : Bool :=
  t == bytesTag || t == strTag || t == intTag || t == boolTag || t == listTag
    || t == tupleTag || t == setTag || t == frozensetTag || t == dictTag

/-! ### Serializers (src/Thwomp.py:85-99) -/

/-- `_bytes_twp`: `bytes(x)`, identity on a bytes object. -/
def _bytes_twp (b : List Nat) : List Nat := b

/-- `_str_twp`: `strToBytes(x)`, the UTF-8 bytes of the string — identity
in the chosen representation of Text. -/
def _str_twp (s : List Nat) : List Nat := s

/-- `_int_twp`: `intToVLQ(x)`. -/
def _int_twp (n : Int) : List Nat := intToVLQ n

/-- `_bool_twp`: `b"\xFF" if x else b"\x00"`. -/
def _bool_twp (b : Bool) : List Nat := if b then [255] else [0]

mutual

/-- `Thwomp` (src/Thwomp.py:134-143): look up the variant by the value's
runtime type name and emit `pascalify(strToBytes(t)) + pascalify(serializer(x))`.
Every constructor of `Value` has a registry entry, so the lookup never
fails here. -/
def Thwomp : Value → List Nat
  | .bytes b => pascalify bytesTag ++ pascalify (_bytes_twp b)
  | .str s => pascalify strTag ++ pascalify (_str_twp s)
  | .int n => pascalify intTag ++ pascalify (_int_twp n)
  | .bool b => pascalify boolTag ++ pascalify (_bool_twp b)
  | .list xs => pascalify listTag ++ pascalify (twpElems xs)
  | .tuple xs => pascalify tupleTag ++ pascalify (twpElems xs)
  | .set xs => pascalify setTag ++ pascalify (twpElems xs)
  | .frozenset xs => pascalify frozensetTag ++ pascalify (twpElems xs)
  | .dict items => pascalify dictTag ++ pascalify (twpItems items)

/-- `_list_twp` (src/Thwomp.py:90-94): concatenate `pascalify(Thwomp(y))`
over the elements. -/
def twpElems : List Value → List Nat
  | [] => []
  | v :: vs => pascalify (Thwomp v) ++ twpElems vs

/-- The body of `_dict_twp` (src/Thwomp.py:99):
`_list_twp(map(_list_twp, x.items()))`.  The inner `_list_twp` turns each
item `(k, v)` into the bytes `pascalify(Thwomp k) ++ pascalify(Thwomp v)`; the
outer `_list_twp` then calls `Thwomp` on that bytes object, so every entry is
framed as a unit tagged `"bytes"` (the expansion of
`Thwomp (.bytes inner)` is written out for termination). -/
def twpItems : List (Value × Value) → List Nat
  | [] => []
  | (k, v) :: rest =>
    pascalify (pascalify bytesTag
        ++ pascalify (pascalify (Thwomp k) ++ pascalify (Thwomp v)))
      ++ twpItems rest

end

/-! ### Deserializers (src/Thwomp.py:103-118) -/

/-- `_bytes_unt`: identity. -/
def _bytes_unt (b : List Nat) : Except DesErr Value := .ok (.bytes b)

/-- `_str_unt`: `bytesToStr`, identity in the chosen representation of
Text (a decode error on invalid UTF-8 is not distinguished here; no
theorem below depends on that path). -/
def _str_unt (b : List Nat) : Except DesErr Value := .ok (.str b)

/-- `_int_unt`: `VLQToInt(blob)`; `IndexError` on a blob with no
terminating byte. -/
def _int_unt (b : List Nat) : Except DesErr Value :=
  match VLQToInt b with
  | none => .error .indexError
  | some n => .ok (.int n)

/-- Python's `blob[0] == "\x00"` compares an `int` with a `str`; values of
different types never compare equal in Python, so the test is always
`False` whatever the byte is. -/
def intEqStr (x : Nat) : Bool := false

/-- `_bool_unt`: `False if blob[0] == "\x00" else True`; `blob[0]` raises
`IndexError` on an empty payload. -/
def _bool_unt (b : List Nat) : Except DesErr Value :=
  match b with
  | [] => .error .indexError
  | x :: _ => .ok (.bool (if intEqStr x then false else true))

mutual

/-- The recursive engine of `Unthwomp` (src/Thwomp.py:145-153), fuelled: peel
the tag frame (`NameError` in the handler if that raises), look the tag up
in `codecs` (handler `TypeError` if absent), peel the payload frame
(uncaught `IndexError` if that raises) and apply the variant's
deserializer to the payload. -/
def untF : Nat → List Nat → Except DesErr Value
  | 0, _ => .error .fuel
  | n + 1, b =>
    match peel b with
    | none => .error .nameError
    | some (t, rest) =>
      if knownTag t then
        match peel rest with
        | none => .error .indexError
        | some (p, _) =>
          if t == bytesTag then _bytes_unt p
          else if t == strTag then _str_unt p
          else if t == intTag then _int_unt p
          else if t == boolTag then _bool_unt p
          else if t == listTag then
            match untListF n p with
            | .error e => .error e
            | .ok vs => .ok (.list vs)
          else if t == tupleTag then
            match untListF n p with
            | .error e => .error e
            | .ok vs => .ok (.tuple vs)
          else if t == setTag then
            match untListF n p with
            | .error e => .error e
            | .ok vs => .ok (.set vs)
          else if t == frozensetTag then
            match untListF n p with
            | .error e => .error e
            | .ok vs => .ok (.frozenset vs)
          else
            match untListF n p with
            | .error e => .error e
            | .ok vs =>
              match untItemsF n vs with
              | .error e => .error e
              | .ok items => .ok (.dict items)
      else .error .typeConcat

/-- `_list_unt` (src/Thwomp.py:108-113), fuelled: peel encoded units until
the blob is exhausted, deserializing each with `Unthwomp`. -/
def untListF : Nat → List Nat → Except DesErr (List Value)
  | _, [] => .ok []
  | 0, _ :: _ => .error .fuel
  | n + 1, x :: bs =>
    match peel (x :: bs) with
    | none => .error .indexError
    | some (y, rest) =>
      match untF n y with
      | .error e => .error e
      | .ok v =>
        match untListF n rest with
        | .error e => .error e
        | .ok vs => .ok (v :: vs)

/-- The `dict(map(_list_unt, ...))` step of `_dict_unt`
(src/Thwomp.py:118): apply `_list_unt` to each decoded entry (which must
be a bytes object holding `[key, value]` as a sequence payload) and build
the dict. -/
def untItemsF : Nat → List Value → Except DesErr (List (Value × Value))
  | _, [] => .ok []
  | 0, _ :: _ => .error .fuel
  | n + 1, v :: vs =>
    match v with
    | .bytes bs =>
      match untListF n bs with
      | .error e => .error e
      | .ok [k, w] =>
        match untItemsF n vs with
        | .error e => .error e
        | .ok items => .ok ((k, w) :: items)
      | .ok _ => .error .valueError
    | _ => .error .typeError

end

/-- `_list_unt` as the registry stores it: the loop of src/Thwomp.py:108-113
run with a budget derived from the payload (each loop step and each
recursive `Unthwomp` consumes framing bytes, so the budget is never exhausted
on the byte strings reasoned about below). -/
def _list_unt (b : List Nat) : Except DesErr Value :=
  match untListF (b.length + 1) b with
  | .error e => .error e
  | .ok vs => .ok (.list vs)

/-- `_tuple_unt` (src/Thwomp.py:115). -/
def _tuple_unt (b : List Nat) : Except DesErr Value :=
  match untListF (b.length + 1) b with
  | .error e => .error e
  | .ok vs => .ok (.tuple vs)

/-- `_set_unt` (src/Thwomp.py:116). -/
def _set_unt (b : List Nat) : Except DesErr Value :=
  match untListF (b.length + 1) b with
  | .error e => .error e
  | .ok vs => .ok (.set vs)

/-- `_frozenset_unt` (src/Thwomp.py:117). -/
def _frozenset_unt (b : List Nat) : Except DesErr Value :=
  match untListF (b.length + 1) b with
  | .error e => .error e
  | .ok vs => .ok (.frozenset vs)

/-- `_dict_unt` (src/Thwomp.py:118): `dict(map(_list_unt, _list_unt(blob)))`. -/
def _dict_unt (b : List Nat) : Except DesErr Value :=
  match untListF (b.length + 1) b with
  | .error e => .error e
  | .ok vs =>
    match untItemsF (b.length + 1) vs with
    | .error e => .error e
    | .ok items => .ok (.dict items)

/-- `Unthwomp` (src/Thwomp.py:145-153): peel the tag frame, look the tag up,
peel the payload frame and apply the registered deserializer.  Bytes after
the payload frame are dropped by `peel(bobj)[0]`. -/
def Unthwomp (b : List Nat) : Except DesErr Value :=
  match peel b with
  | none => .error .nameError
  | some (t, rest) =>
    if knownTag t then
      match peel rest with
      | none => .error .indexError
      | some (p, _) =>
        if t == bytesTag then _bytes_unt p
        else if t == strTag then _str_unt p
        else if t == intTag then _int_unt p
        else if t == boolTag then _bool_unt p
        else if t == listTag then _list_unt p
        else if t == tupleTag then _tuple_unt p
        else if t == setTag then _set_unt p
        else if t == frozensetTag then _frozenset_unt p
        else _dict_unt p
    else .error .typeConcat

end Thwomp

namespace SerDes

/-! ### VLQ codec lemmas -/

theorem lor128_and127 : ∀ d < 128, (d ||| 128) &&& 127 = d := by decide

theorem lor128_and128 : ∀ d < 128, (d ||| 128) &&& 128 = 128 := by decide

theorem small_and127 : ∀ d < 128, d &&& 127 = d := by decide

theorem small_and128 : ∀ d < 128, d &&& 128 = 0 := by decide

theorem clearLast_append (xs : List Nat) (y : Nat) :
    clearLast (xs ++ [y]) = xs ++ [y &&& 127] := by
  induction xs with
  | nil => rfl
  | cons a xs ih =>
    cases xs with
    | nil => rfl
    | cons b xs => simpa [clearLast] using ih

/-- The encoded form: a single byte for `n < 128`, otherwise the marked
higher digits followed by the low digit with its continuation bit clear. -/
theorem natToVLQ_eq (n : Nat) :
    natToVLQ n = if n < 128 then [n] else vlqMarked (n / 128) ++ [n % 128] := by
  unfold natToVLQ
  rw [vlqMarked]
  by_cases h : n < 128
  · simp only [h, if_pos]
    simp [clearLast, lor128_and127 n h]
  · simp only [h, if_neg, if_false]
    rw [clearLast_append]
    rw [lor128_and127 (n % 128) (Nat.mod_lt n (by omega))]

theorem vlqGo_marked (n : Nat) :
    ∀ acc rest, vlqGo acc (vlqMarked n ++ rest)
      = vlqGo (acc * 128 ^ (vlqMarked n).length + n) rest := by
  induction n using Nat.strong_induction_on with
  | _ n ih =>
    intro acc rest
    rw [vlqMarked]
    by_cases h : n < 128
    · simp only [h, if_pos]
      rw [List.cons_append, List.nil_append, vlqGo]
      rw [if_pos (by rw [lor128_and128 n h]; omega)]
      rw [lor128_and127 n h]
      simp
    · simp only [h, if_neg, if_false]
      rw [List.append_assoc, List.cons_append, List.nil_append]
      rw [ih (n / 128) (Nat.div_lt_self (by omega) (by omega))]
      rw [vlqGo]
      have h7 : n % 128 < 128 := Nat.mod_lt n (by omega)
      rw [if_pos (by rw [lor128_and128 _ h7]; omega)]
      rw [lor128_and127 _ h7]
      simp only [List.length_append, List.length_cons, List.length_nil]
      congr 1
      have harith : (acc * 128 ^ (vlqMarked (n / 128)).length + n / 128) * 128 + n % 128
          = acc * (128 ^ (vlqMarked (n / 128)).length * 128) + (n / 128 * 128 + n % 128) := by
        ring
      rw [harith, ← pow_succ]
      have h2 : n / 128 * 128 + n % 128 = n := by omega
      rw [h2]

theorem skipVLQ_marked (n : Nat) :
    ∀ rest, skipVLQ (vlqMarked n ++ rest) = skipVLQ rest := by
  induction n using Nat.strong_induction_on with
  | _ n ih =>
    intro rest
    rw [vlqMarked]
    by_cases h : n < 128
    · simp only [h, if_pos]
      rw [List.cons_append, List.nil_append, skipVLQ]
      rw [if_pos (by rw [lor128_and128 n h]; omega)]
    · simp only [h, if_neg, if_false]
      rw [List.append_assoc, List.cons_append, List.nil_append]
      rw [ih (n / 128) (Nat.div_lt_self (by omega) (by omega))]
      rw [skipVLQ]
      have h7 : n % 128 < 128 := Nat.mod_lt n (by omega)
      rw [if_pos (by rw [lor128_and128 _ h7]; omega)]

/-- Decoding a VLQ followed by arbitrary bytes recovers the encoded number
and never looks at the trailing bytes. -/
theorem VLQToInt_encode_append (n : Nat) (rest : List Nat) :
    VLQToInt (natToVLQ n ++ rest) = some n := by
  rw [natToVLQ_eq, VLQToInt]
  by_cases h : n < 128
  · simp only [h, if_pos, List.cons_append, List.nil_append]
    rw [vlqGo]
    rw [if_neg (by rw [small_and128 n h]; omega)]
    rw [small_and127 n h]
    simp
  · simp only [h, if_neg, if_false]
    rw [List.append_assoc, List.cons_append, List.nil_append, vlqGo_marked]
    have h7 : n % 128 < 128 := Nat.mod_lt n (by omega)
    rw [vlqGo]
    rw [if_neg (by rw [small_and128 _ h7]; omega)]
    rw [small_and127 _ h7]
    have h0 : 0 * 128 ^ (vlqMarked (n / 128)).length + n / 128 = n / 128 := by omega
    rw [h0]
    simp only [Option.some.injEq]
    omega

theorem skipVLQ_encode_append (n : Nat) (rest : List Nat) :
    skipVLQ (natToVLQ n ++ rest) = some rest := by
  rw [natToVLQ_eq]
  by_cases h : n < 128
  · simp only [h, if_pos, List.cons_append, List.nil_append]
    rw [skipVLQ]
    rw [if_neg (by rw [small_and128 n h]; omega)]
  · simp only [h, if_neg, if_false]
    rw [List.append_assoc, List.cons_append, List.nil_append, skipVLQ_marked]
    have h7 : n % 128 < 128 := Nat.mod_lt n (by omega)
    rw [skipVLQ]
    rw [if_neg (by rw [small_and128 _ h7]; omega)]

theorem depascalify_pascalify_append (P X : List Nat) :
    depascalify (pascalify P ++ X) = some (P.length, P ++ X) := by
  rw [pascalify, intToVLQ, List.append_assoc]
  rw [depascalify]
  rw [show (P.length : Int).natAbs = P.length from rfl]
  rw [VLQToInt_encode_append, skipVLQ_encode_append]

/-- Framing composability: peeling a pascalified block recovers the block
and the untouched remainder. -/
theorem peel_pascalify_append (P X : List Nat) :
    peel (pascalify P ++ X) = some (P, X) := by
  rw [peel, depascalify_pascalify_append]
  simp

theorem peel_pascalify (P : List Nat) : peel (pascalify P) = some (P, []) := by
  have := peel_pascalify_append P []
  simpa using this


/-- The written-out entry of `serItems` is exactly `pascalify (Ser ·)` of
the inner bytes object, as the outer `_list_ser` computes it. -/
theorem serItems_cons (k v : Value) (rest : List (Value × Value)) :
    serItems ((k, v) :: rest)
      = pascalify (Ser (.bytes (pascalify (Ser k) ++ pascalify (Ser v))))
          ++ serItems rest := by
  rw [serItems, Ser, _bytes_ser]


end SerDes

namespace SerDes

theorem VLQToInt_encode (n : Nat) : VLQToInt (natToVLQ n) = some n := by
  have := VLQToInt_encode_append n []
  simpa using this

/-- The accumulator loop never terminates on a byte string in which every
byte has the continuation bit set. -/
theorem vlqGo_all_marked_none (bs : List Nat) :
    (∀ x ∈ bs, x &&& 128 ≠ 0) → ∀ acc, vlqGo acc bs = none := by
  induction bs with
  | nil => intro _ acc; rfl
  | cons x rest ih =>
    intro h acc
    rw [vlqGo, if_pos (h x (by simp))]
    exact ih (fun y hy => h y (by simp [hy])) _

theorem VLQToInt_all_marked_none (bs : List Nat)
    (h : ∀ x ∈ bs, x &&& 128 ≠ 0) : VLQToInt bs = none :=
  vlqGo_all_marked_none bs h 0

/-- When the declared length exceeds the bytes available, `peel` does not
fail: Python slicing clamps, so the whole remainder is returned as the
frame and the second component is empty. -/
theorem peel_declared_too_long (b : List Nat) (n : Nat) (rest : List Nat)
    (hdep : depascalify b = some (n, rest)) (hlt : rest.length < n) :
    peel b = some (rest, []) := by
  rw [peel, hdep]
  dsimp only
  rw [List.take_of_length_le (by omega), List.drop_eq_nil_of_le (by omega)]

/-- Trailing bytes after the payload frame are never consumed: `Des`
peels exactly two frames and hands the second one to the registered
deserializer. -/
theorem Des_Ser_append (v : Value) (X : List Nat) :
    Des (Ser v ++ X) = Des (Ser v) := by
  cases v <;>
    simp only [Ser, Des, List.append_assoc, peel_pascalify_append, peel_pascalify]

end SerDes

namespace SerDes

theorem known_intTag : knownTag intTag = true := rfl

theorem intTag_ne_bytesTag : (intTag == bytesTag) = false := rfl

theorem intTag_ne_strTag : (intTag == strTag) = false := rfl

theorem intTag_beq_self : (intTag == intTag) = true := rfl

/-- The Int variant stores only `abs(int(n))`: decoding what `Ser` wrote
for an integer always yields its absolute value. -/
theorem Des_Ser_int (n : Int) : Des (Ser (.int n)) = .ok (.int n.natAbs) := by
  rw [Ser]
  simp only [Des, peel_pascalify_append, peel_pascalify, known_intTag,
    intTag_ne_bytesTag, intTag_ne_strTag, intTag_beq_self, if_true, if_false,
    Bool.false_eq_true, _int_des, _int_ser, intToVLQ]
  rw [VLQToInt_encode]

/-- Concrete wire form of `Ser(False)`: frame of `"bool"`, then the frame
of the payload byte `0x00`. -/
theorem Ser_bool_false : Ser (.bool false) = [4, 98, 111, 111, 108, 1, 0] := by
  simp [Ser, _bool_ser, pascalify, intToVLQ, natToVLQ_eq, boolTag]

theorem Ser_bool_true : Ser (.bool true) = [4, 98, 111, 111, 108, 1, 255] := by
  simp [Ser, _bool_ser, pascalify, intToVLQ, natToVLQ_eq, boolTag]

theorem Ser_int_neg_one : Ser (.int (-1)) = [3, 105, 110, 116, 1, 1] := by
  simp [Ser, _int_ser, pascalify, intToVLQ, natToVLQ_eq, intTag]

end SerDes

/-! ### `src/SD.py` and `src/SerDes.py` define the same byte-level codec -/

theorem sd_vlqMarked_eq (n : Nat) : SD.vlqMarked n = SerDes.vlqMarked n := by
  induction n using Nat.strong_induction_on with
  | _ n ih =>
    rw [SD.vlqMarked, SerDes.vlqMarked]
    by_cases h : n < 128
    · simp [h]
    · simp only [h, if_false]
      rw [ih (n / 128) (Nat.div_lt_self (by omega) (by omega))]

theorem sd_clearLast_eq (l : List Nat) : SD.clearLast l = SerDes.clearLast l := by
  induction l with
  | nil => rfl
  | cons d rest ih =>
    cases rest with
    | nil => rfl
    | cons e r =>
      show d :: SD.clearLast (e :: r) = d :: SerDes.clearLast (e :: r)
      rw [ih]

theorem sd_natToVLQ_eq (n : Nat) : SD.natToVLQ n = SerDes.natToVLQ n := by
  rw [SD.natToVLQ, SerDes.natToVLQ, sd_vlqMarked_eq, sd_clearLast_eq]

theorem sd_intToVLQ_eq (n : Int) : SD.intToVLQ n = SerDes.intToVLQ n := by
  rw [SD.intToVLQ, SerDes.intToVLQ, sd_natToVLQ_eq]

theorem sd_vlqGo_eq (l : List Nat) : ∀ acc, SD.vlqGo acc l = SerDes.vlqGo acc l := by
  induction l with
  | nil => intro acc; rfl
  | cons x rest ih =>
    intro acc
    rw [SD.vlqGo, SerDes.vlqGo]
    by_cases h : x &&& 128 ≠ 0
    · rw [if_pos h, if_pos h]
      exact ih _
    · rw [if_neg h, if_neg h]

theorem sd_VLQToInt_eq (b : List Nat) : SD.VLQToInt b = SerDes.VLQToInt b := by
  rw [SD.VLQToInt, SerDes.VLQToInt, sd_vlqGo_eq]

theorem sd_skipVLQ_eq (b : List Nat) : SD.skipVLQ b = SerDes.skipVLQ b := by
  induction b with
  | nil => rfl
  | cons x rest ih =>
    rw [SD.skipVLQ, SerDes.skipVLQ]
    by_cases h : x &&& 128 ≠ 0
    · rw [if_pos h, if_pos h]
      exact ih
    · rw [if_neg h, if_neg h]

theorem sd_pascalify_eq (b : List Nat) : SD.pascalify b = SerDes.pascalify b := by
  rw [SD.pascalify, SerDes.pascalify, sd_intToVLQ_eq]

theorem sd_depascalify_eq (b : List Nat) : SD.depascalify b = SerDes.depascalify b := by
  rw [SD.depascalify, SerDes.depascalify, sd_VLQToInt_eq, sd_skipVLQ_eq]

theorem sd_peel_eq (b : List Nat) : SD.peel b = SerDes.peel b := by
  rw [SD.peel, SerDes.peel, sd_depascalify_eq]

theorem sd_knownTag_eq (t : List Nat) : SD.knownTag t = SerDes.knownTag t := rfl

theorem sd_bytesTag_eq : SD.bytesTag = SerDes.bytesTag := rfl
theorem sd_strTag_eq : SD.strTag = SerDes.strTag := rfl
theorem sd_intTag_eq : SD.intTag = SerDes.intTag := rfl
theorem sd_boolTag_eq : SD.boolTag = SerDes.boolTag := rfl
theorem sd_listTag_eq : SD.listTag = SerDes.listTag := rfl
theorem sd_tupleTag_eq : SD.tupleTag = SerDes.tupleTag := rfl
theorem sd_setTag_eq : SD.setTag = SerDes.setTag := rfl
theorem sd_frozensetTag_eq : SD.frozensetTag = SerDes.frozensetTag := rfl
theorem sd_dictTag_eq : SD.dictTag = SerDes.dictTag := rfl

theorem sd_bytes_ser_eq (b : List Nat) : SD._bytes_ser b = SerDes._bytes_ser b := rfl

theorem sd_str_ser_eq (s : List Nat) : SD._str_ser s = SerDes._str_ser s := rfl

theorem sd_int_ser_eq (n : Int) : SD._int_ser n = SerDes._int_ser n := by
  rw [SD._int_ser, SerDes._int_ser, sd_intToVLQ_eq]

theorem sd_bool_ser_eq (b : Bool) : SD._bool_ser b = SerDes._bool_ser b := rfl

/-- The serializing sides of `src/SD.py` and `src/SerDes.py` agree on every
value, proved by joint induction on the size of the value. -/
theorem sd_ser_bounded : ∀ N : Nat,
    (∀ v : Value, sizeOf v ≤ N → SD.Ser v = SerDes.Ser v) ∧
    (∀ xs : List Value, sizeOf xs ≤ N → SD.serElems xs = SerDes.serElems xs) ∧
    (∀ its : List (Value × Value), sizeOf its ≤ N →
      SD.serItems its = SerDes.serItems its) := by
  intro N
  induction N with
  | zero =>
    refine ⟨fun v hv => absurd hv ?_, fun xs hxs => absurd hxs ?_,
      fun its hits => absurd hits ?_⟩
    · cases v <;> simp
    · cases xs <;> simp
    · cases its <;> simp
  | succ N ih =>
    obtain ⟨ihV, ihL, ihI⟩ := ih
    refine ⟨?_, ?_, ?_⟩
    · intro v hv
      cases v with
      | bytes b =>
        simp only [SD.Ser, SerDes.Ser, sd_pascalify_eq, sd_bytesTag_eq, sd_bytes_ser_eq]
      | str s =>
        simp only [SD.Ser, SerDes.Ser, sd_pascalify_eq, sd_strTag_eq, sd_str_ser_eq]
      | int n =>
        simp only [SD.Ser, SerDes.Ser, sd_pascalify_eq, sd_intTag_eq, sd_int_ser_eq]
      | bool b =>
        simp only [SD.Ser, SerDes.Ser, sd_pascalify_eq, sd_boolTag_eq, sd_bool_ser_eq]
      | list xs =>
        have hxs : sizeOf xs ≤ N := by simp at hv; omega
        simp only [SD.Ser, SerDes.Ser, sd_pascalify_eq, sd_listTag_eq, ihL xs hxs]
      | tuple xs =>
        have hxs : sizeOf xs ≤ N := by simp at hv; omega
        simp only [SD.Ser, SerDes.Ser, sd_pascalify_eq, sd_tupleTag_eq, ihL xs hxs]
      | set xs =>
        have hxs : sizeOf xs ≤ N := by simp at hv; omega
        simp only [SD.Ser, SerDes.Ser, sd_pascalify_eq, sd_setTag_eq, ihL xs hxs]
      | frozenset xs =>
        have hxs : sizeOf xs ≤ N := by simp at hv; omega
        simp only [SD.Ser, SerDes.Ser, sd_pascalify_eq, sd_frozensetTag_eq, ihL xs hxs]
      | dict its =>
        have hits : sizeOf its ≤ N := by simp at hv; omega
        simp only [SD.Ser, SerDes.Ser, sd_pascalify_eq, sd_dictTag_eq, ihI its hits]
    · intro xs hxs
      cases xs with
      | nil => rfl
      | cons v vs =>
        have h1 : sizeOf v ≤ N := by simp at hxs; omega
        have h2 : sizeOf vs ≤ N := by simp at hxs; omega
        simp only [SD.serElems, SerDes.serElems, sd_pascalify_eq, ihV v h1, ihL vs h2]
    · intro its hits
      cases its with
      | nil => rfl
      | cons kv rest =>
        obtain ⟨k, w⟩ := kv
        have h1 : sizeOf k ≤ N := by simp at hits; omega
        have h2 : sizeOf w ≤ N := by simp at hits; omega
        have h3 : sizeOf rest ≤ N := by simp at hits; omega
        simp only [SD.serItems, SerDes.serItems, sd_pascalify_eq, sd_bytesTag_eq,
          ihV k h1, ihV w h2, ihI rest h3]

/-- `SD.Ser` and `SerDes.Ser` agree on every value. -/
theorem sd_Ser_eq (v : Value) : SD.Ser v = SerDes.Ser v :=
  (sd_ser_bounded (sizeOf v)).1 v le_rfl

theorem sd_bytes_des_eq (b : List Nat) : SD._bytes_des b = SerDes._bytes_des b := rfl

theorem sd_str_des_eq (b : List Nat) : SD._str_des b = SerDes._str_des b := rfl

theorem sd_int_des_eq (b : List Nat) : SD._int_des b = SerDes._int_des b := by
  rw [SD._int_des, SerDes._int_des, sd_VLQToInt_eq]

theorem sd_bool_des_eq (b : List Nat) : SD._bool_des b = SerDes._bool_des b := rfl

set_option maxHeartbeats 2000000 in
/-- The fuelled deserializing engines of `src/SD.py` and `src/SerDes.py`
agree at every budget, by induction on the budget. -/
theorem sd_des_fuel : ∀ n : Nat,
    (∀ b, SD.desF n b = SerDes.desF n b) ∧
    (∀ b, SD.desListF n b = SerDes.desListF n b) ∧
    (∀ vs, SD.desItemsF n vs = SerDes.desItemsF n vs) := by
  intro n
  induction n with
  | zero =>
    refine ⟨fun b => rfl, fun b => ?_, fun vs => ?_⟩
    · cases b <;> rfl
    · cases vs <;> rfl
  | succ n ih =>
    obtain ⟨ihF, ihL, ihI⟩ := ih
    refine ⟨?_, ?_, ?_⟩
    · intro b
      rw [SD.desF, SerDes.desF, sd_peel_eq]
      cases hp : SerDes.peel b with
      | none => rfl
      | some tr =>
        obtain ⟨t, rest⟩ := tr
        dsimp only
        rw [sd_knownTag_eq]
        by_cases hk : SerDes.knownTag t = true
        · rw [if_pos hk, if_pos hk, sd_peel_eq]
          cases hp2 : SerDes.peel rest with
          | none => rfl
          | some pr =>
            obtain ⟨p, r2⟩ := pr
            dsimp only
            simp only [sd_bytesTag_eq, sd_strTag_eq, sd_intTag_eq, sd_boolTag_eq,
              sd_listTag_eq, sd_tupleTag_eq, sd_setTag_eq, sd_frozensetTag_eq,
              sd_dictTag_eq, sd_bytes_des_eq, sd_str_des_eq, sd_int_des_eq,
              sd_bool_des_eq, ihL, ihI]
        · rw [if_neg hk, if_neg hk]
    · intro b
      cases b with
      | nil => rfl
      | cons x bs =>
        simp only [SD.desListF, SerDes.desListF, sd_peel_eq, ihF, ihL]
    · intro vs
      cases vs with
      | nil => rfl
      | cons v rest =>
        cases v <;> simp only [SD.desItemsF, SerDes.desItemsF, ihL, ihI]

theorem sd_list_des_eq (b : List Nat) : SD._list_des b = SerDes._list_des b := by
  rw [SD._list_des, SerDes._list_des, (sd_des_fuel _).2.1]

theorem sd_tuple_des_eq (b : List Nat) : SD._tuple_des b = SerDes._tuple_des b := by
  rw [SD._tuple_des, SerDes._tuple_des, (sd_des_fuel _).2.1]

theorem sd_set_des_eq (b : List Nat) : SD._set_des b = SerDes._set_des b := by
  rw [SD._set_des, SerDes._set_des, (sd_des_fuel _).2.1]

theorem sd_frozenset_des_eq (b : List Nat) :
    SD._frozenset_des b = SerDes._frozenset_des b := by
  rw [SD._frozenset_des, SerDes._frozenset_des, (sd_des_fuel _).2.1]

theorem sd_dict_des_eq (b : List Nat) : SD._dict_des b = SerDes._dict_des b := by
  simp only [SD._dict_des, SerDes._dict_des, (sd_des_fuel _).2.1, (sd_des_fuel _).2.2]

/-- `SD.Des` and `SerDes.Des` agree on every byte string. -/
theorem sd_Des_eq (b : List Nat) : SD.Des b = SerDes.Des b := by
  simp only [SD.Des, SerDes.Des, sd_peel_eq, sd_knownTag_eq, sd_bytesTag_eq,
    sd_strTag_eq, sd_intTag_eq, sd_boolTag_eq, sd_listTag_eq, sd_tupleTag_eq,
    sd_setTag_eq, sd_frozensetTag_eq, sd_dictTag_eq, sd_bytes_des_eq,
    sd_str_des_eq, sd_int_des_eq, sd_bool_des_eq, sd_list_des_eq,
    sd_tuple_des_eq, sd_set_des_eq, sd_frozenset_des_eq, sd_dict_des_eq]

/-! ### `src/Thwomp.py` and `src/SerDes.py` define the same byte-level codec -/

theorem twp_vlqMarked_eq (n : Nat) : Thwomp.vlqMarked n = SerDes.vlqMarked n := by
  induction n using Nat.strong_induction_on with
  | _ n ih =>
    rw [Thwomp.vlqMarked, SerDes.vlqMarked]
    by_cases h : n < 128
    · simp [h]
    · simp only [h, if_false]
      rw [ih (n / 128) (Nat.div_lt_self (by omega) (by omega))]

theorem twp_clearLast_eq (l : List Nat) : Thwomp.clearLast l = SerDes.clearLast l := by
  induction l with
  | nil => rfl
  | cons d rest ih =>
    cases rest with
    | nil => rfl
    | cons e r =>
      show d :: Thwomp.clearLast (e :: r) = d :: SerDes.clearLast (e :: r)
      rw [ih]

theorem twp_natToVLQ_eq (n : Nat) : Thwomp.natToVLQ n = SerDes.natToVLQ n := by
  rw [Thwomp.natToVLQ, SerDes.natToVLQ, twp_vlqMarked_eq, twp_clearLast_eq]

theorem twp_intToVLQ_eq (n : Int) : Thwomp.intToVLQ n = SerDes.intToVLQ n := by
  rw [Thwomp.intToVLQ, SerDes.intToVLQ, twp_natToVLQ_eq]

theorem twp_vlqGo_eq (l : List Nat) : ∀ acc, Thwomp.vlqGo acc l = SerDes.vlqGo acc l := by
  induction l with
  | nil => intro acc; rfl
  | cons x rest ih =>
    intro acc
    rw [Thwomp.vlqGo, SerDes.vlqGo]
    by_cases h : x &&& 128 ≠ 0
    · rw [if_pos h, if_pos h]
      exact ih _
    · rw [if_neg h, if_neg h]

theorem twp_VLQToInt_eq (b : List Nat) : Thwomp.VLQToInt b = SerDes.VLQToInt b := by
  rw [Thwomp.VLQToInt, SerDes.VLQToInt, twp_vlqGo_eq]

theorem twp_skipVLQ_eq (b : List Nat) : Thwomp.skipVLQ b = SerDes.skipVLQ b := by
  induction b with
  | nil => rfl
  | cons x rest ih =>
    rw [Thwomp.skipVLQ, SerDes.skipVLQ]
    by_cases h : x &&& 128 ≠ 0
    · rw [if_pos h, if_pos h]
      exact ih
    · rw [if_neg h, if_neg h]

theorem twp_pascalify_eq (b : List Nat) : Thwomp.pascalify b = SerDes.pascalify b := by
  rw [Thwomp.pascalify, SerDes.pascalify, twp_intToVLQ_eq]

theorem twp_depascalify_eq (b : List Nat) : Thwomp.depascalify b = SerDes.depascalify b := by
  rw [Thwomp.depascalify, SerDes.depascalify, twp_VLQToInt_eq, twp_skipVLQ_eq]

theorem twp_peel_eq (b : List Nat) : Thwomp.peel b = SerDes.peel b := by
  rw [Thwomp.peel, SerDes.peel, twp_depascalify_eq]

theorem twp_knownTag_eq (t : List Nat) : Thwomp.knownTag t = SerDes.knownTag t := rfl

theorem twp_bytesTag_eq : Thwomp.bytesTag = SerDes.bytesTag := rfl
theorem twp_strTag_eq : Thwomp.strTag = SerDes.strTag := rfl
theorem twp_intTag_eq : Thwomp.intTag = SerDes.intTag := rfl
theorem twp_boolTag_eq : Thwomp.boolTag = SerDes.boolTag := rfl
theorem twp_listTag_eq : Thwomp.listTag = SerDes.listTag := rfl
theorem twp_tupleTag_eq : Thwomp.tupleTag = SerDes.tupleTag := rfl
theorem twp_setTag_eq : Thwomp.setTag = SerDes.setTag := rfl
theorem twp_frozensetTag_eq : Thwomp.frozensetTag = SerDes.frozensetTag := rfl
theorem twp_dictTag_eq : Thwomp.dictTag = SerDes.dictTag := rfl

theorem twp_bytes_ser_eq (b : List Nat) : Thwomp._bytes_twp b = SerDes._bytes_ser b := rfl

theorem twp_str_ser_eq (s : List Nat) : Thwomp._str_twp s = SerDes._str_ser s := rfl

theorem twp_int_ser_eq (n : Int) : Thwomp._int_twp n = SerDes._int_ser n := by
  rw [Thwomp._int_twp, SerDes._int_ser, twp_intToVLQ_eq]

theorem twp_bool_ser_eq (b : Bool) : Thwomp._bool_twp b = SerDes._bool_ser b := rfl

/-- The serializing sides of `src/Thwomp.py` and `src/SerDes.py` agree on every value, proved by joint induction on the size of the value. -/
theorem twp_ser_bounded : ∀ N : Nat,
    (∀ v : Value, sizeOf v ≤ N → Thwomp.Thwomp v = SerDes.Ser v) ∧
    (∀ xs : List Value, sizeOf xs ≤ N → Thwomp.twpElems xs = SerDes.serElems xs) ∧
    (∀ its : List (Value × Value), sizeOf its ≤ N →
      Thwomp.twpItems its = SerDes.serItems its) := by
  intro N
  induction N with
  | zero =>
    refine ⟨fun v hv => absurd hv ?_, fun xs hxs => absurd hxs ?_,
      fun its hits => absurd hits ?_⟩
    · cases v <;> simp
    · cases xs <;> simp
    · cases its <;> simp
  | succ N ih =>
    obtain ⟨ihV, ihL, ihI⟩ := ih
    refine ⟨?_, ?_, ?_⟩
    · intro v hv
      cases v with
      | bytes b =>
        simp only [Thwomp.Thwomp, SerDes.Ser, twp_pascalify_eq, twp_bytesTag_eq, twp_bytes_ser_eq]
      | str s =>
        simp only [Thwomp.Thwomp, SerDes.Ser, twp_pascalify_eq, twp_strTag_eq, twp_str_ser_eq]
      | int n =>
        simp only [Thwomp.Thwomp, SerDes.Ser, twp_pascalify_eq, twp_intTag_eq, twp_int_ser_eq]
      | bool b =>
        simp only [Thwomp.Thwomp, SerDes.Ser, twp_pascalify_eq, twp_boolTag_eq, twp_bool_ser_eq]
      | list xs =>
        have hxs : sizeOf xs ≤ N := by simp at hv; omega
        simp only [Thwomp.Thwomp, SerDes.Ser, twp_pascalify_eq, twp_listTag_eq, ihL xs hxs]
      | tuple xs =>
        have hxs : sizeOf xs ≤ N := by simp at hv; omega
        simp only [Thwomp.Thwomp, SerDes.Ser, twp_pascalify_eq, twp_tupleTag_eq, ihL xs hxs]
      | set xs =>
        have hxs : sizeOf xs ≤ N := by simp at hv; omega
        simp only [Thwomp.Thwomp, SerDes.Ser, twp_pascalify_eq, twp_setTag_eq, ihL xs hxs]
      | frozenset xs =>
        have hxs : sizeOf xs ≤ N := by simp at hv; omega
        simp only [Thwomp.Thwomp, SerDes.Ser, twp_pascalify_eq, twp_frozensetTag_eq, ihL xs hxs]
      | dict its =>
        have hits : sizeOf its ≤ N := by simp at hv; omega
        simp only [Thwomp.Thwomp, SerDes.Ser, twp_pascalify_eq, twp_dictTag_eq, ihI its hits]
    · intro xs hxs
      cases xs with
      | nil => rfl
      | cons v vs =>
        have h1 : sizeOf v ≤ N := by simp at hxs; omega
        have h2 : sizeOf vs ≤ N := by simp at hxs; omega
        simp only [Thwomp.twpElems, SerDes.serElems, twp_pascalify_eq, ihV v h1, ihL vs h2]
    · intro its hits
      cases its with
      | nil => rfl
      | cons kv rest =>
        obtain ⟨k, w⟩ := kv
        have h1 : sizeOf k ≤ N := by simp at hits; omega
        have h2 : sizeOf w ≤ N := by simp at hits; omega
        have h3 : sizeOf rest ≤ N := by simp at hits; omega
        simp only [Thwomp.twpItems, SerDes.serItems, twp_pascalify_eq, twp_bytesTag_eq,
          ihV k h1, ihV w h2, ihI rest h3]

/-- `Thwomp.Thwomp` and `SerDes.Ser` agree on every value. -/
theorem twp_Ser_eq (v : Value) : Thwomp.Thwomp v = SerDes.Ser v :=
  (twp_ser_bounded (sizeOf v)).1 v le_rfl

theorem twp_bytes_des_eq (b : List Nat) : Thwomp._bytes_unt b = SerDes._bytes_des b := rfl

theorem twp_str_des_eq (b : List Nat) : Thwomp._str_unt b = SerDes._str_des b := rfl

theorem twp_int_des_eq (b : List Nat) : Thwomp._int_unt b = SerDes._int_des b := by
  rw [Thwomp._int_unt, SerDes._int_des, twp_VLQToInt_eq]

theorem twp_bool_des_eq (b : List Nat) : Thwomp._bool_unt b = SerDes._bool_des b := rfl

set_option maxHeartbeats 2000000 in
/-- The fuelled deserializing engines of `src/Thwomp.py` and `src/SerDes.py`
agree at every budget, by induction on the budget. -/
theorem twp_des_fuel : ∀ n : Nat,
    (∀ b, Thwomp.untF n b = SerDes.desF n b) ∧
    (∀ b, Thwomp.untListF n b = SerDes.desListF n b) ∧
    (∀ vs, Thwomp.untItemsF n vs = SerDes.desItemsF n vs) := by
  intro n
  induction n with
  | zero =>
    refine ⟨fun b => rfl, fun b => ?_, fun vs => ?_⟩
    · cases b <;> rfl
    · cases vs <;> rfl
  | succ n ih =>
    obtain ⟨ihF, ihL, ihI⟩ := ih
    refine ⟨?_, ?_, ?_⟩
    · intro b
      rw [Thwomp.untF, SerDes.desF, twp_peel_eq]
      cases hp : SerDes.peel b with
      | none => rfl
      | some tr =>
        obtain ⟨t, rest⟩ := tr
        dsimp only
        rw [twp_knownTag_eq]
        by_cases hk : SerDes.knownTag t = true
        · rw [if_pos hk, if_pos hk, twp_peel_eq]
          cases hp2 : SerDes.peel rest with
          | none => rfl
          | some pr =>
            obtain ⟨p, r2⟩ := pr
            dsimp only
            simp only [twp_bytesTag_eq, twp_strTag_eq, twp_intTag_eq, twp_boolTag_eq,
              twp_listTag_eq, twp_tupleTag_eq, twp_setTag_eq, twp_frozensetTag_eq,
              twp_dictTag_eq, twp_bytes_des_eq, twp_str_des_eq, twp_int_des_eq,
              twp_bool_des_eq, ihL, ihI]
        · rw [if_neg hk, if_neg hk]
    · intro b
      cases b with
      | nil => rfl
      | cons x bs =>
        simp only [Thwomp.untListF, SerDes.desListF, twp_peel_eq, ihF, ihL]
    · intro vs
      cases vs with
      | nil => rfl
      | cons v rest =>
        cases v <;> simp only [Thwomp.untItemsF, SerDes.desItemsF, ihL, ihI]

theorem twp_list_des_eq (b : List Nat) : Thwomp._list_unt b = SerDes._list_des b := by
  rw [Thwomp._list_unt, SerDes._list_des, (twp_des_fuel _).2.1]

theorem twp_tuple_des_eq (b : List Nat) : Thwomp._tuple_unt b = SerDes._tuple_des b := by
  rw [Thwomp._tuple_unt, SerDes._tuple_des, (twp_des_fuel _).2.1]

theorem twp_set_des_eq (b : List Nat) : Thwomp._set_unt b = SerDes._set_des b := by
  rw [Thwomp._set_unt, SerDes._set_des, (twp_des_fuel _).2.1]

theorem twp_frozenset_des_eq (b : List Nat) :
    Thwomp._frozenset_unt b = SerDes._frozenset_des b := by
  rw [Thwomp._frozenset_unt, SerDes._frozenset_des, (twp_des_fuel _).2.1]

theorem twp_dict_des_eq (b : List Nat) : Thwomp._dict_unt b = SerDes._dict_des b := by
  simp only [Thwomp._dict_unt, SerDes._dict_des, (twp_des_fuel _).2.1, (twp_des_fuel _).2.2]

/-- `Thwomp.Unthwomp` and `SerDes.Des` agree on every byte string. -/
theorem twp_Des_eq (b : List Nat) : Thwomp.Unthwomp b = SerDes.Des b := by
  simp only [Thwomp.Unthwomp, SerDes.Des, twp_peel_eq, twp_knownTag_eq, twp_bytesTag_eq,
    twp_strTag_eq, twp_intTag_eq, twp_boolTag_eq, twp_listTag_eq, twp_tupleTag_eq,
    twp_setTag_eq, twp_frozensetTag_eq, twp_dictTag_eq, twp_bytes_des_eq,
    twp_str_des_eq, twp_int_des_eq, twp_bool_des_eq, twp_list_des_eq,
    twp_tuple_des_eq, twp_set_des_eq, twp_frozenset_des_eq, twp_dict_des_eq]

namespace SerDes

theorem Des_Ser_bool_false : Des (Ser (.bool false)) = .ok (.bool true) := by
  rw [Ser_bool_false]
  rfl

end SerDes

/-! ### Claim theorems -/

/-- C1: the claimed round-trip law `Des(Ser(v)) == v` (exact equality for
the Bool variant among others) is broken by the code: the Bool
deserializer compares the `int` `blob[0]` with the `str` `"\x00"`, so
`Des(Ser(False))` returns `True`; likewise the Int variant stores only
`abs(n)`, so `Des(Ser(-1))` returns `1`.  The spec states the evident
intent (the later `src/ToBeGreen/SD.py` fixes both), hence a code bug,
witnessed here by evaluating the code at the failing inputs. -/
theorem claim1_roundtrip_broken_at_false :
    SerDes.Des (SerDes.Ser (.bool false)) = .ok (.bool true)
    ∧ SerDes.Des (SerDes.Ser (.int (-1))) = .ok (.int 1) :=
  ⟨SerDes.Des_Ser_bool_false, SerDes.Des_Ser_int (-1)⟩

/-- C2: framing is composable and self-delimiting — for all byte sequences
`P` and `X`, `peel(pascalify(P) ++ X) == (P, X)`. -/
theorem claim2_framing_composable (P X : List Nat) :
    SerDes.peel (SerDes.pascalify P ++ X) = some (P, X) :=
  SerDes.peel_pascalify_append P X

/-- C3: the VLQ codec round-trips every non-negative integer
(`VLQToInt(intToVLQ(n)) == n`), `intToVLQ(0)` is the single byte `0x00`,
the output is a single byte for every `n < 128`, and the concrete vectors
`55, 127, 128, 129, 246537` encode as in the unit tests. -/
theorem claim3_vlq_roundtrip_and_vectors :
    (∀ n : Nat, SerDes.VLQToInt (SerDes.intToVLQ n) = some n)
    ∧ SerDes.intToVLQ 0 = [0x00]
    ∧ (∀ n : Nat, n < 128 → (SerDes.intToVLQ (n : Int)).length = 1)
    ∧ SerDes.intToVLQ 55 = [0x37]
    ∧ SerDes.intToVLQ 127 = [0x7F]
    ∧ SerDes.intToVLQ 128 = [0x81, 0x00]
    ∧ SerDes.intToVLQ 129 = [0x81, 0x01]
    ∧ SerDes.intToVLQ 246537 = [0x8F, 0x86, 0x09] := by
  refine ⟨?_, ?_, ?_, ?_, ?_, ?_, ?_, ?_⟩
  · intro n
    show SerDes.VLQToInt (SerDes.natToVLQ (n : Int).natAbs) = some n
    rw [Int.natAbs_ofNat, SerDes.VLQToInt_encode]
  · simp [SerDes.intToVLQ, SerDes.natToVLQ_eq]
  · intro n hn
    show (SerDes.natToVLQ (n : Int).natAbs).length = 1
    rw [Int.natAbs_ofNat, SerDes.natToVLQ_eq, if_pos hn]
    rfl
  · simp [SerDes.intToVLQ, SerDes.natToVLQ_eq]
  · simp [SerDes.intToVLQ, SerDes.natToVLQ_eq]
  · simp [SerDes.intToVLQ, SerDes.natToVLQ_eq, SerDes.vlqMarked]
  · simp [SerDes.intToVLQ, SerDes.natToVLQ_eq, SerDes.vlqMarked]
  · simp [SerDes.intToVLQ, SerDes.natToVLQ_eq, SerDes.vlqMarked]

/-- Witness for C3 at a concrete input: `55 < 128` and the encoding of
`55` is a single byte. -/
theorem claim3_vlq_witness : (SerDes.intToVLQ (55 : Nat)).length = 1 :=
  claim3_vlq_roundtrip_and_vectors.2.2.1 55 (by norm_num)

/-- C4, counterexample: on `[2, 65]` the declared frame length `2` exceeds
the single available byte, yet `peel` does not fail — Python slicing
clamps, so it returns the whole remainder and an empty rest, while the
claim says this input fails with `MalformedInput`. -/
theorem claim4_counterexample :
    SerDes.peel [2, 65] ≠ none ∧ SerDes.peel [2, 65] = some ([65], []) := by
  refine ⟨?_, ?_⟩ <;> decide

/-- C4 as amended: VLQ decoding of an empty or all-continuation-bit byte
sequence fails (an uncaught `IndexError`, modelled as `none`), but `peel`
on a frame whose declared length exceeds the available bytes does not
fail: it returns all remaining bytes as the frame and an empty remainder,
never reading past the end of the buffer. -/
theorem claim4_amended_truncation_behavior :
    SerDes.VLQToInt [] = none
    ∧ (∀ bs : List Nat, (∀ x ∈ bs, x &&& 128 ≠ 0) → SerDes.VLQToInt bs = none)
    ∧ (∀ (b : List Nat) (n : Nat) (rest : List Nat),
        SerDes.depascalify b = some (n, rest) → rest.length < n →
        SerDes.peel b = some (rest, [])) :=
  ⟨rfl, fun bs h => SerDes.VLQToInt_all_marked_none bs h,
    fun b n rest hdep hlt => SerDes.peel_declared_too_long b n rest hdep hlt⟩

/-- Witness for C4 at concrete inputs: `[129, 200]` is all-continuation
and fails to decode; `[3, 65]` declares 3 payload bytes with only one
available and `peel` returns that byte with an empty rest. -/
theorem claim4_witness :
    SerDes.VLQToInt [129, 200] = none ∧ SerDes.peel [3, 65] = some ([65], []) :=
  ⟨claim4_amended_truncation_behavior.2.1 [129, 200] (by decide),
    claim4_amended_truncation_behavior.2.2 [3, 65] 3 [65] (by decide) (by decide)⟩

/-- C5, counterexample: for the dict `{0: 0}` the Mapping payload written
by `Ser` is not the Sequence-encoding of the 2-element `[key, value]`
Sequence — the entry unit on the wire is tagged `"bytes"`, not `"list"`. -/
theorem claim5_counterexample :
    SerDes.serItems [(Value.int 0, Value.int 0)]
        ≠ SerDes.serElems [Value.list [Value.int 0, Value.int 0]]
    ∧ SerDes.Ser (Value.dict [(Value.int 0, Value.int 0)])
        = SerDes.pascalify SerDes.dictTag
            ++ SerDes.pascalify (SerDes.serItems [(Value.int 0, Value.int 0)]) := by
  constructor
  · have h1 : SerDes.serItems [(Value.int 0, Value.int 0)]
        = [21, 5, 98, 121, 116, 101, 115, 14,
           6, 3, 105, 110, 116, 1, 0, 6, 3, 105, 110, 116, 1, 0] := by
      simp [SerDes.serItems, SerDes.serElems, SerDes.Ser, SerDes._int_ser,
        SerDes.pascalify, SerDes.intToVLQ, SerDes.natToVLQ_eq, SerDes.bytesTag,
        SerDes.intTag]
    have h2 : SerDes.serElems [Value.list [Value.int 0, Value.int 0]]
        = [20, 4, 108, 105, 115, 116, 14,
           6, 3, 105, 110, 116, 1, 0, 6, 3, 105, 110, 116, 1, 0] := by
      simp [SerDes.serItems, SerDes.serElems, SerDes.Ser, SerDes._int_ser,
        SerDes.pascalify, SerDes.intToVLQ, SerDes.natToVLQ_eq, SerDes.listTag,
        SerDes.intTag]
    rw [h1, h2]
    decide
  · rw [SerDes.Ser]

/-- C5 as amended: each dict entry appears on the wire as a framed encoded
unit tagged `"bytes"` (not as a Sequence) whose payload is the
Sequence-style concatenation of the framed encoded key and the framed
encoded value; the Mapping payload is the concatenation of these units. -/
theorem claim5_amended_dict_entries_bytes_tagged :
    (∀ (k v : Value) (rest : List (Value × Value)),
      SerDes.serItems ((k, v) :: rest)
        = SerDes.pascalify (SerDes.Ser (.bytes
            (SerDes.pascalify (SerDes.Ser k) ++ SerDes.pascalify (SerDes.Ser v))))
          ++ SerDes.serItems rest)
    ∧ (∀ its : List (Value × Value),
      SerDes.Ser (.dict its)
        = SerDes.pascalify SerDes.dictTag ++ SerDes.pascalify (SerDes.serItems its)) :=
  ⟨fun k v rest => SerDes.serItems_cons k v rest, fun its => by rw [SerDes.Ser]⟩

/-- C6: `Des` consumes only the leading tag frame and the following
payload frame — trailing bytes never change the result. -/
theorem claim6_trailing_bytes_ignored (v : Value) (X : List Nat) :
    SerDes.Des (SerDes.Ser v ++ X) = SerDes.Des (SerDes.Ser v) :=
  SerDes.Des_Ser_append v X

/-- C7: on a well-formed frame pair whose tag decodes to the unregistered
name `"bogus"`, `Des` does fail — but not with a typed `UnknownTag`
carrying the name: the `except` handler itself crashes with a `TypeError`
(concatenating `str` with `bytes`), carrying no tag name at all.  The
handler's own message template shows the intent to name the offender, so
this is a code bug, witnessed by evaluating `Des` at that frame pair. -/
theorem claim7_unknown_tag_handler_crash :
    SerDes.Des (SerDes.pascalify [98, 111, 103, 117, 115] ++ SerDes.pascalify [])
      = .error .typeConcat := by
  have h : SerDes.pascalify [98, 111, 103, 117, 115] ++ SerDes.pascalify []
      = [5, 98, 111, 103, 117, 115, 0] := by
    simp [SerDes.pascalify, SerDes.intToVLQ, SerDes.natToVLQ_eq]
  rw [h]
  rfl

/-- C8: the three VLQ-based implementations are extensionally equal — the
serializers agree on every value and the deserializers agree on every byte
sequence (in particular wherever any of them succeeds). -/
theorem claim8_implementations_agree :
    (∀ v : Value, SD.Ser v = SerDes.Ser v ∧ SerDes.Ser v = Thwomp.Thwomp v)
    ∧ (∀ b : List Nat, SD.Des b = SerDes.Des b ∧ SerDes.Des b = Thwomp.Unthwomp b) :=
  ⟨fun v => ⟨sd_Ser_eq v, (twp_Ser_eq v).symm⟩,
    fun b => ⟨sd_Des_eq b, (twp_Des_eq b).symm⟩⟩

/-- C9: in all three VLQ-based implementations the Bool deserializer
returns `True` for every non-empty payload — including the byte `0x00`
that the serializer writes for `False`, because `blob[0] == "\x00"`
compares an `int` with a `str` — so `Des(Ser(False))` yields `True`. -/
theorem claim9_bool_des_always_true :
    (∀ (x : Nat) (rest : List Nat),
      SerDes._bool_des (x :: rest) = .ok (.bool true))
    ∧ (∀ (x : Nat) (rest : List Nat),
      SD._bool_des (x :: rest) = .ok (.bool true))
    ∧ (∀ (x : Nat) (rest : List Nat),
      Thwomp._bool_unt (x :: rest) = .ok (.bool true))
    ∧ SerDes.Des (SerDes.Ser (.bool false)) = .ok (.bool true)
    ∧ SD.Des (SD.Ser (.bool false)) = .ok (.bool true)
    ∧ Thwomp.Unthwomp (Thwomp.Thwomp (.bool false)) = .ok (.bool true) := by
  refine ⟨fun x rest => rfl, fun x rest => rfl, fun x rest => rfl, ?_, ?_, ?_⟩
  · exact SerDes.Des_Ser_bool_false
  · rw [sd_Des_eq, sd_Ser_eq]
    exact SerDes.Des_Ser_bool_false
  · rw [twp_Des_eq, twp_Ser_eq]
    exact SerDes.Des_Ser_bool_false

/-- C10: `intToVLQ` accepts every integer and encodes its absolute value
(`intToVLQ(n) == intToVLQ(abs(n))`), so in the three VLQ-based
implementations the Int variant silently discards sign: for every negative
`n`, `Des(Ser(n))` returns `abs(n)`, not `n`. -/
theorem claim10_int_sign_discarded :
    (∀ n : Int, SerDes.intToVLQ n = SerDes.intToVLQ |n|)
    ∧ (∀ n : Int, n < 0 →
        SerDes.Des (SerDes.Ser (.int n)) = .ok (.int n.natAbs)
        ∧ SD.Des (SD.Ser (.int n)) = .ok (.int n.natAbs)
        ∧ Thwomp.Unthwomp (Thwomp.Thwomp (.int n)) = .ok (.int n.natAbs)
        ∧ Value.int (n.natAbs) ≠ Value.int n) := by
  refine ⟨?_, ?_⟩
  · intro n
    rw [SerDes.intToVLQ, SerDes.intToVLQ, Int.natAbs_abs]
  · intro n hn
    refine ⟨SerDes.Des_Ser_int n, ?_, ?_, ?_⟩
    · rw [sd_Des_eq, sd_Ser_eq]
      exact SerDes.Des_Ser_int n
    · rw [twp_Des_eq, twp_Ser_eq]
      exact SerDes.Des_Ser_int n
    · intro h
      have h2 : ((n.natAbs : Int)) = n := by injection h
      omega

/-- Witness for C10 at the concrete input `-1`: decoding what `Ser` wrote
yields `1`. -/
theorem claim10_witness :
    SerDes.Des (SerDes.Ser (.int (-1))) = .ok (.int 1) :=
  (claim10_int_sign_discarded.2 (-1) (by norm_num)).1
